import Mathlib

/-!
Verification of the Skeleto mini web framework (src/Skeleto/core.py)
against its natural-language specification.

The file shallowly embeds the Python source: strings are Lean `String`s,
byte strings are `List Nat`, Python dicts are association lists with
Python's insertion-order update semantics, and the components of the
request-dispatch pipeline that the repository's spec describes but whose
code is not present in src/Skeleto/core.py (context parser, middleware
executor, route resolver, server loop) are modelled from the spec, each
marked `Modelled from the spec:` in its doc comment.
-/

namespace Skeleto

/-- UTF-8 encoding of a single character, the encoding used by Python
`str.encode()` with its default codec. -/
def utf8EncodeChar (c : Char) : List Nat :=
  let n := c.toNat
  if n < 128 then [n]
  else if n < 2048 then [192 + n / 64, 128 + n % 64]
  else if n < 65536 then [224 + n / 4096, 128 + (n / 64) % 64, 128 + n % 64]
  else [240 + n / 262144, 128 + (n / 4096) % 64, 128 + (n / 64) % 64, 128 + n % 64]

/-- UTF-8 encoding of a string, as Python `body.encode()` in
`Response.__init__` (core.py line 140). -/
def utf8Encode (s : String) : List Nat :=
  s.data.flatMap utf8EncodeChar

/-- One character of Python `html.escape(s)` (quote=True, the default used
at core.py line 150): the five characters ampersand, less-than,
greater-than, double quote (code 34) and single quote (code 39) are
replaced by their HTML entities; every other character is kept.  Python
performs the five replacements sequentially starting with the ampersand, which
is equivalent to this character-wise map because no entity text contains a
later replacement target. -/
def escapeChar (c : Char) : List Char :=
  if c = '&' then "&amp;".data
  else if c = '<' then "&lt;".data
  else if c = '>' then "&gt;".data
  else if c.toNat = 34 then "&quot;".data
  else if c.toNat = 39 then "&#x27;".data
  else [c]

/-- Python `html.escape` applied to a whole string. -/
def htmlEscape (s : String) : String :=
  String.mk (s.data.flatMap escapeChar)

/-- The `body` argument of `Response.__init__`: Python accepts either a
`str` or a byte sequence (core.py line 140 tests `isinstance(body, str)`). -/
inductive BodyArg where
  | str (s : String) : BodyArg
  | bytes (b : List Nat) : BodyArg
deriving DecidableEq

/-- The Response value (core.py lines 138-142): status code, byte body and
header list. -/
structure Response where
  body : List Nat
  status : Nat
  headers : List (String × String)
deriving DecidableEq

/-- Embeds `Response.__init__` (core.py lines 139-142).  A `str` body is
UTF-8 encoded, a byte body is stored unchanged; Python's
`headers or [('Content-Type', 'text/html')]` falls back to the default
both when `headers` is `None` and when it is an empty (falsy) list.
Python's defaults are `status=200`, `headers=None`; call sites here pass
them explicitly. -/
def Response.init (body : BodyArg) (status : Nat)
    (headers : Option (List (String × String))) : Response :=
  { body :=
      match body with
      | .str s => utf8Encode s
      | .bytes b => b
    status := status
    headers :=
      match headers with
      | none => [("Content-Type", "text/html")]
      | some [] => [("Content-Type", "text/html")]
      | some hs => hs }

/-- Embeds `Redirect.__init__` (core.py lines 144-146):
`super().__init__('', 302, [('Location', location)])`. -/
def Redirect.init (location : String) : Response :=
  Response.init (.str "") 302 (some [("Location", location)])

/-- Embeds `Error.__init__` (core.py lines 148-150): the body is the
rendered template with the caller's message HTML-escaped; Python's default
is `status=500`, passed explicitly by call sites here. -/
def Error.init (message : String) (status : Nat) : Response :=
  Response.init
    (.str ("<h1>Error " ++ toString status ++ "</h1><p>"
      ++ htmlEscape message ++ "</p>"))
    status none

/-- Python dict assignment `d[k] = v` on an insertion-ordered dict,
represented as an association list: an existing key keeps its insertion
position and gets the new value; a new key is appended at the end. -/
def dictInsert {α : Type} (d : List (String × α)) (k : String) (v : α) :
    List (String × α) :=
  match d with
  | [] => [(k, v)]
  | p :: rest => if p.1 = k then (k, v) :: rest else p :: dictInsert rest k v

/-- Python dict lookup `d.get(k)`. -/
def dictLookup {α : Type} (d : List (String × α)) (k : String) : Option α :=
  match d with
  | [] => none
  | p :: rest => if p.1 = k then some p.2 else dictLookup rest k

/-- Split a character list on every occurrence of a separator character. -/
def splitOnChar (sep : Char) : List Char → List (List Char)
  | [] => [[]]
  | c :: rest =>
    match splitOnChar sep rest with
    | [] => [[]]
    | g :: gs => if c = sep then [] :: g :: gs else (c :: g) :: gs

/-- Split a character list at the first occurrence of a separator
character; `none` when the separator does not occur. -/
def splitFirstOn (sep : Char) : List Char → Option (List Char × List Char)
  | [] => none
  | c :: rest =>
    if c = sep then some ([], rest)
    else (splitFirstOn sep rest).map (fun p => (c :: p.1, p.2))

/-- Value of a hexadecimal digit character, `none` for other characters. -/
def hexVal (c : Char) : Option Nat :=
  let n := c.toNat
  if 48 ≤ n ∧ n ≤ 57 then some (n - 48)
  else if 65 ≤ n ∧ n ≤ 70 then some (n - 55)
  else if 97 ≤ n ∧ n ≤ 102 then some (n - 87)
  else none

/-- Modelled from the spec: URL-encoded-form decoding of one component
(spec section 4.1: "query parsing decodes percent-encoding and
plus-as-space per standard URL-encoded-form rules", leniently).  A valid
percent escape becomes the escaped character, a plus becomes a space, and
a malformed escape is kept verbatim. -/
def percentDecodeChars : List Char → List Char
  | [] => []
  | '+' :: rest => ' ' :: percentDecodeChars rest
  | '%' :: a :: b :: rest =>
    (match hexVal a, hexVal b with
     | some x, some y => Char.ofNat (16 * x + y) :: percentDecodeChars rest
     | _, _ => '%' :: percentDecodeChars (a :: b :: rest))
  | c :: rest => c :: percentDecodeChars rest

/-- Modelled from the spec: the decoded key-value pairs of a query string
in their textual order, before they are folded into a dict (the context
parser is absent from src/Skeleto/core.py).  The string is split on
ampersands, each part is split at its first equals sign (parts without one
are dropped), and both sides are URL-decoded. -/
def queryPairs (q : String) : List (String × String) :=
  (splitOnChar '&' q.data).filterMap (fun part =>
    match splitFirstOn '=' part with
    | some (k, v) =>
      some (String.mk (percentDecodeChars k), String.mk (percentDecodeChars v))
    | none => none)

/-- Fold a pair list into a Python dict in textual order, so that a later
pair for the same key overwrites an earlier one. -/
def fromPairs (ps : List (String × String)) : List (String × String) :=
  ps.foldl (fun d p => dictInsert d p.1 p.2) []

/-- Modelled from the spec: query-string parsing into the context's query
mapping (spec section 3: "string to string, last-value-wins on duplicate
keys"). -/
def parseQuery (q : String) : List (String × String) :=
  fromPairs (queryPairs q)

/-- Split a character list on every occurrence of the two-character
cookie separator, a semicolon followed by a space. -/
def splitOnSemiSpace : List Char → List (List Char)
  | [] => [[]]
  | ';' :: ' ' :: rest => [] :: splitOnSemiSpace rest
  | c :: rest =>
    match splitOnSemiSpace rest with
    | [] => [[]]
    | g :: gs => (c :: g) :: gs

/-- Modelled from the spec: cookie-header parsing (spec section 4.1:
split the Cookie header on semicolon-space, split each part on the first
equals sign, ignore parts without one, no percent-decoding). -/
def parseCookies (raw : String) : List (String × String) :=
  fromPairs ((splitOnSemiSpace raw.data).filterMap (fun part =>
    match splitFirstOn '=' part with
    | some (k, v) => some (String.mk k, String.mk v)
    | none => none))

/-- Whether the first character list occurs at the start of the second. -/
def startsWithChars : List Char → List Char → Bool
  | [], _ => true
  | _ :: _, [] => false
  | a :: as, b :: bs => a = b && startsWithChars as bs

/-- Whether the first character list occurs as a contiguous run anywhere
in the second (Python's `needle in haystack` on strings). -/
def hasSubChars (needle : List Char) : List Char → Bool
  | [] => startsWithChars needle []
  | c :: rest => startsWithChars needle (c :: rest) || hasSubChars needle rest

/-- Modelled from the spec: the per-request Context structure (spec
section 3; the context parser is absent from src/Skeleto/core.py). -/
structure Context where
  method : String
  rawPath : String
  path : String
  query : List (String × String)
  headers : List (String × String)
  cookies : List (String × String)
  body : List Nat
  form : List (String × String)

/-- Python `headers.get(name, '')` on the header mapping. -/
def headerGet (hs : List (String × String)) (k : String) : String :=
  match dictLookup hs k with
  | some v => v
  | none => ""

/-- Modelled from the spec: construction of a Context from a raw request
(spec section 4.1): the raw path splits as path-question-mark-query, the
query is parsed last-value-wins, cookies come from the Cookie header, and
the form mapping is populated only for body-bearing methods whose
Content-Type contains the URL-encoded-form type (bytes decoded
leniently). -/
def mkContext (method : String) (target : String)
    (headers : List (String × String)) (body : List Nat) : Context :=
  let pq :=
    match splitFirstOn '?' target.data with
    | some p => p
    | none => (target.data, [])
  { method := method
    rawPath := target
    path := String.mk pq.1
    query := parseQuery (String.mk pq.2)
    headers := headers
    cookies := parseCookies (headerGet headers "Cookie")
    body := body
    form :=
      if (method == "POST" || method == "PUT" || method == "PATCH")
          && hasSubChars "application/x-www-form-urlencoded".data
              (headerGet headers "Content-Type").data
      then parseQuery (String.mk (body.map Char.ofNat))
      else [] }

/-- A registered handler function.  `docsView` stands for the bound method
`MiniFramework.docs_view` registered at core.py line 21; `user n` stands
for an arbitrary user-supplied handler, distinguished by an index. -/
inductive Handler where
  | docsView : Handler
  | user : Nat → Handler
deriving DecidableEq

/-- Modelled from the spec: a middleware receives the context and a
continuation capability (spec sections 4.3 and 6); it either produces its
own Response (`some`, a short-circuit) or calls the continuation and
returns that result (`none`).  The executor itself is absent from
src/Skeleto/core.py. -/
def Middleware (C : Type) : Type := C → Option Response

/-- The framework state (core.py lines 8-21).  The fields `routes`,
`db_connections`, `log` and `csrf_tokens` of `__init__` are initialised
empty and never touched by any operation under verification, so they are
omitted here. -/
structure MiniFramework where
  urls : List (String × Handler)
  middlewares : List (Middleware Context)
  debug : Bool
  admin_pin : Option Nat
  enable_docs : Bool
  docs_format : String
  route_docs : List (String × String)

/-- Embeds `MiniFramework.__init__` (core.py lines 8-21): everything starts
empty, `debug` false and `admin_pin` unset; when `enable_docs` holds, the
docs view is registered under the path `/docs` before any user route can
be added. -/
def MiniFramework.init (enable_docs : Bool) (docs_format : String) :
    MiniFramework :=
  { urls := if enable_docs then dictInsert [] "/docs" Handler.docsView else []
    middlewares := []
    debug := false
    admin_pin := none
    enable_docs := enable_docs
    docs_format := docs_format
    route_docs := [] }

/-- Embeds `MiniFramework.add_route` (core.py lines 36-39): the handler is
stored in the urls dict under the given path, and its doc string is
recorded only when docs are enabled. -/
def MiniFramework.add_route (self : MiniFramework) (path : String)
    (func : Handler) (doc : String) : MiniFramework :=
  { self with
    urls := dictInsert self.urls path func
    route_docs :=
      if self.enable_docs then dictInsert self.route_docs path doc
      else self.route_docs }

/-- Modelled from the spec: abstract syntax of the regular expressions
that route pattern strings denote (spec section 4.2; the resolver is
absent from src/Skeleto/core.py, which only stores the pattern-to-handler
dict). -/
inductive Regex where
  | emp : Regex
  | eps : Regex
  | chr : Char → Regex
  | dot : Regex
  | alt : Regex → Regex → Regex
  | cat : Regex → Regex → Regex
  | star : Regex → Regex
deriving DecidableEq

/-- Whether a regex accepts the empty string. -/
def Regex.nullable : Regex → Bool
  | .emp => false
  | .eps => true
  | .chr _ => false
  | .dot => false
  | .alt a b => a.nullable || b.nullable
  | .cat a b => a.nullable && b.nullable
  | .star _ => true

/-- Brzozowski derivative of a regex by one character. -/
def Regex.deriv : Regex → Char → Regex
  | .emp, _ => .emp
  | .eps, _ => .emp
  | .chr c, x => if x = c then .eps else .emp
  | .dot, _ => .eps
  | .alt a b, x => .alt (a.deriv x) (b.deriv x)
  | .cat a b, x =>
    if a.nullable then .alt (.cat (a.deriv x) b) (b.deriv x)
    else .cat (a.deriv x) b
  | .star a, x => .cat (a.deriv x) (.star a)

/-- Whether a regex accepts exactly a whole character list. -/
def Regex.matchChars : Regex → List Char → Bool
  | r, [] => r.nullable
  | r, c :: cs => (r.deriv c).matchChars cs

/-- Modelled from the spec: Python `re.fullmatch` semantics (spec section
4.2) — the pattern must match the whole path, never merely a prefix or a
substring of it. -/
def fullmatch (r : Regex) (s : String) : Bool :=
  r.matchChars s.data

/-- The regex denoted by a route path with no metacharacters: the literal
string itself. -/
def litPattern (s : String) : Regex :=
  s.data.foldr (fun c acc => Regex.cat (Regex.chr c) acc) Regex.eps

/-- Modelled from the spec: the 404 not-found response for an unmatched
path (spec sections 4.2 and 7: a route miss is a normal 404 Error
response), produced without consulting any handler. -/
def notFound : Response :=
  Error.init "Not Found" 404

/-- Modelled from the spec: route resolution (spec section 4.2) — the
registered patterns are tried in registration order, the first whose
regex fully matches the path wins, and matching no pattern is the
not-found signal. -/
def resolve (routes : List (Regex × Handler)) (p : String) : Option Handler :=
  match routes with
  | [] => none
  | (pat, h) :: rest => if fullmatch pat p then some h else resolve rest p

/-- Modelled from the spec: dispatching a path — run the resolved
handler, or return the 404 response when resolution signals
not-found. -/
def dispatch (routes : List (Regex × Handler))
    (runHandler : Handler → Response) (p : String) : Response :=
  match resolve routes p with
  | some h => runHandler h
  | none => notFound

/-- Modelled from the spec: the middleware chain executor (spec section
4.3; absent from src/Skeleto/core.py).  `runChainFrom ms term ctx i`
invokes the chain at cursor `i`: the middleware at the cursor either
short-circuits with its own response or the chain recurses at cursor
`i + 1`, and past the end of the list the terminal router step runs.
Besides the response, the executor returns the cursor positions of the
middlewares that actually executed, in execution order, and whether the
terminal step ran. -/
def runChainFrom {C : Type} (ms : List (Middleware C)) (term : C → Response)
    (ctx : C) (i : Nat) : Response × List Nat × Bool :=
  match ms with
  | [] => (term ctx, [], true)
  | m :: rest =>
    match m ctx with
    | some r => (r, [i], false)
    | none =>
      let res := runChainFrom rest term ctx (i + 1)
      (res.1, i :: res.2.1, res.2.2)

/-- Modelled from the spec: invoking the composed chain starts at cursor
zero (spec section 4.3, step 1). -/
def runChain {C : Type} (ms : List (Middleware C)) (term : C → Response)
    (ctx : C) : Response × List Nat × Bool :=
  runChainFrom ms term ctx 0

/-- Modelled from the spec: a raw inbound request as the server loop sees
it. -/
structure Request where
  method : String
  target : String
  headers : List (String × String)
  body : List Nat

/-- Modelled from the spec: the outcome of the per-request pipeline —
context parsing, the middleware chain and the handler — as seen from the
server-loop boundary: a Response, or an uncaught failure carrying its
description (spec section 7). -/
inductive Outcome where
  | ok : Response → Outcome
  | fail : String → Outcome
deriving DecidableEq

/-- Modelled from the spec: the per-request server-loop boundary (spec
sections 4.4 and 7; the loop is absent from src/Skeleto/core.py).  A
pipeline response passes through; an uncaught failure is caught exactly
here and converted to a 500 Error whose message is the failure
description in debug mode and a generic one otherwise. -/
def handleRequest (debug : Bool) (pipeline : Request → Outcome)
    (req : Request) : Response :=
  match pipeline req with
  | .ok r => r
  | .fail msg =>
    Error.init (if debug then msg else "Internal Server Error") 500

/-- Modelled from the spec: the accept loop of one server run serves
every arriving request, each through its own per-request boundary. -/
def serve (debug : Bool) (pipeline : Request → Outcome)
    (reqs : List Request) : List Response :=
  reqs.map (handleRequest debug pipeline)

/-- Modelled from the spec: the observable result of a server run — the
framework state after startup plus everything printed to the operator
console (spec section 4.4). -/
structure ServerRun where
  app : MiniFramework
  console : List String

/-- Modelled from the spec: server startup (spec sections 3 and 4.4; the
run loop is absent from src/Skeleto/core.py, whose `__init__` only
initialises `admin_pin` to None): one fresh numeric access code is drawn
per run and stored, and it is printed to the operator console only when
the debug flag is set. -/
def startup (app : MiniFramework) (freshCode : Nat) : ServerRun :=
  { app := { app with admin_pin := some freshCode }
    console := if app.debug then ["Admin PIN: " ++ toString freshCode] else [] }

/-- Modelled from the spec: a whole server run — startup once, then the
accept loop over the run's requests; per-request handling reads but never
rewrites the process-wide configuration (spec section 3), so the run's
state and console are exactly those of startup. -/
def runServer (app : MiniFramework) (freshCode : Nat)
    (pipeline : Request → Outcome) (reqs : List Request) :
    ServerRun × List Response :=
  (startup app freshCode,
   serve (startup app freshCode).app.debug pipeline reqs)

/-- Every character produced by `escapeChar` is HTML-safe: it is never a
raw less-than, greater-than, double quote or single quote. -/
lemma escapeChar_safe (x c : Char) (hc : c ∈ escapeChar x) :
    c ≠ '<' ∧ c ≠ '>' ∧ c.toNat ≠ 34 ∧ c.toNat ≠ 39 := by
  unfold escapeChar at hc
  split_ifs at hc with h1 h2 h3 h4 h5
  · fin_cases hc <;> decide
  · fin_cases hc <;> decide
  · fin_cases hc <;> decide
  · fin_cases hc <;> decide
  · fin_cases hc <;> decide
  · simp only [List.mem_singleton] at hc
    subst hc
    refine ⟨h2, h3, h4, h5⟩

/-- The escaped form of a whole string contains no raw less-than,
greater-than, double-quote or single-quote character. -/
lemma htmlEscape_safe (m : String) (c : Char) (hc : c ∈ (htmlEscape m).data) :
    c ≠ '<' ∧ c ≠ '>' ∧ c.toNat ≠ 34 ∧ c.toNat ≠ 39 := by
  have hdata : (htmlEscape m).data = m.data.flatMap escapeChar := rfl
  rw [hdata, List.mem_flatMap] at hc
  obtain ⟨x, _, hcx⟩ := hc
  exact escapeChar_safe x c hcx

/-- C4: for every location string, `Redirect(location)` is a Response with
status 302, an empty body, and a `Location` header bound to that
location. -/
theorem claim_C4_redirect (L : String) :
    (Redirect.init L).status = 302
    ∧ (Redirect.init L).body = []
    ∧ ("Location", L) ∈ (Redirect.init L).headers := by
  refine ⟨rfl, rfl, ?_⟩
  simp [Redirect.init, Response.init]

/-- C5: for every message, `Error(message)` with the default status is a
Response with status 500 whose body is the rendered HTML template in which
the message appears only through `html.escape` (the escaped fragment
contains no raw markup character, so the message is never embedded
verbatim in active form). -/
theorem claim_C5_error_escapes (m : String) :
    (Error.init m 500).status = 500
    ∧ (Error.init m 500).body
        = utf8Encode ("<h1>Error 500</h1><p>" ++ htmlEscape m ++ "</p>")
    ∧ ∀ c ∈ (htmlEscape m).data,
        c ≠ '<' ∧ c ≠ '>' ∧ c.toNat ≠ 34 ∧ c.toNat ≠ 39 := by
  refine ⟨rfl, rfl, fun c hc => htmlEscape_safe m c hc⟩

/-- C5 witness: evaluation at the concrete message containing raw markup,
with the safety conclusion instantiated at a concrete character of the
escaped output. -/
theorem claim_C5_error_escapes_witness :
    (Error.init "<b>" 500).status = 500
    ∧ 'b' ∈ (htmlEscape "<b>").data
    ∧ ('b' ≠ '<' ∧ 'b' ≠ '>' ∧ Char.toNat 'b' ≠ 34 ∧ Char.toNat 'b' ≠ 39) :=
  ⟨(claim_C5_error_escapes "<b>").1, by decide,
    (claim_C5_error_escapes "<b>").2.2 'b' (by decide)⟩

/-- C9: constructing `Response(body)` with the default status and headers
yields status 200 and the single Content-Type header; a `str` body is
stored as its UTF-8 encoding and a byte body is stored unchanged. -/
theorem claim_C9_response_defaults (s : String) (bs : List Nat) :
    (Response.init (.str s) 200 none).status = 200
    ∧ (Response.init (.str s) 200 none).headers
        = [("Content-Type", "text/html")]
    ∧ (Response.init (.str s) 200 none).body = utf8Encode s
    ∧ (Response.init (.bytes bs) 200 none).status = 200
    ∧ (Response.init (.bytes bs) 200 none).headers
        = [("Content-Type", "text/html")]
    ∧ (Response.init (.bytes bs) 200 none).body = bs :=
  ⟨rfl, rfl, rfl, rfl, rfl, rfl⟩

/-- Looking a key up after a dict assignment returns the assigned value
for that key and leaves every other key's binding unchanged. -/
lemma dictLookup_dictInsert {α : Type} (d : List (String × α)) (k : String)
    (v : α) (q : String) :
    dictLookup (dictInsert d k v) q = if k = q then some v else dictLookup d q := by
  induction d with
  | nil => simp [dictInsert, dictLookup]
  | cons p rest ih =>
    by_cases hp : p.1 = k
    · by_cases hkq : k = q
      · simp [dictInsert, dictLookup, hp, hkq]
      · have hpq : ¬p.1 = q := by rw [hp]; exact hkq
        simp [dictInsert, dictLookup, hp, hkq, hpq]
    · by_cases hpq : p.1 = q
      · by_cases hkq : k = q
        · exact absurd (hpq.trans hkq.symm) hp
        · have hqk : ¬q = k := fun hh => hkq hh.symm
          simp [dictInsert, dictLookup, hp, hpq, hkq, hqk]
      · by_cases hkq : k = q
        · subst hkq
          simp [dictInsert, dictLookup, hp, hpq, ih]
        · have hqk : ¬q = k := fun hh => hkq hh.symm
          simp [dictInsert, dictLookup, hp, hpq, hkq, hqk, ih]

/-- The key list after a dict assignment: unchanged when the key was
already present, extended by the key at the end otherwise. -/
lemma keys_dictInsert {α : Type} (d : List (String × α)) (k : String) (v : α) :
    (dictInsert d k v).map Prod.fst
      = if k ∈ d.map Prod.fst then d.map Prod.fst else d.map Prod.fst ++ [k] := by
  induction d with
  | nil => simp [dictInsert]
  | cons p rest ih =>
    by_cases hp : p.1 = k
    · simp [dictInsert, hp]
    · have hk : k ≠ p.1 := fun hh => hp hh.symm
      by_cases hm : k ∈ rest.map Prod.fst
      · simp [dictInsert, hp, ih, hm, hk]
      · simp [dictInsert, hp, ih, hm, hk]

/-- Folding pairs into a dict gives each key the value of its last
occurrence: looking up `k` finds the first pair with key `k` in the
reversed pair list, falling back to the start dict. -/
lemma dictLookup_foldl_dictInsert (ps : List (String × String))
    (d : List (String × String)) (k : String) :
    dictLookup (ps.foldl (fun acc pr => dictInsert acc pr.1 pr.2) d) k
      = match ps.reverse.find? (fun pr => pr.1 == k) with
        | some pr => some pr.2
        | none => dictLookup d k := by
  induction ps using List.reverseRecOn with
  | nil => simp
  | append_singleton qs q ih =>
    rw [List.foldl_append]
    simp only [List.foldl_cons, List.foldl_nil]
    rw [dictLookup_dictInsert, List.reverse_append]
    simp only [List.reverse_cons, List.reverse_nil, List.nil_append,
      List.singleton_append, List.find?_cons]
    by_cases h : q.1 = k
    · have hb : (q.1 == k) = true := beq_iff_eq.mpr h
      simp [hb, h]
    · have hb : (q.1 == k) = false := beq_eq_false_iff_ne.mpr h
      simp [hb, h, ih]

/-- C6: query parsing is last-value-wins — for every decoded pair list the
dict fold binds each key to the value of that key's last occurrence, and
the query string a=1&a=2&b=x parses, both directly and through Context
construction, to the mapping with a bound to 2 and b bound to x. -/
theorem claim_C6_query_last_wins :
    (∀ (ps : List (String × String)) (k : String),
        dictLookup (fromPairs ps) k
          = Option.map Prod.snd (ps.reverse.find? (fun pr => pr.1 == k)))
    ∧ (mkContext "GET" "/p?a=1&a=2&b=x" [] []).query = [("a", "2"), ("b", "x")]
    ∧ parseQuery "a=1&a=2&b=x" = [("a", "2"), ("b", "x")] := by
  refine ⟨fun ps k => ?_, by decide, by decide⟩
  have h := dictLookup_foldl_dictInsert ps [] k
  unfold fromPairs
  rw [h]
  cases ps.reverse.find? (fun pr => pr.1 == k) <;> simp [dictLookup]

/-- C8: registering a second handler for an already-registered path
silently replaces the first: the later handler is the sole registration
for that path and every other path's registration is untouched. -/
theorem claim_C8_add_route_replace (fw : MiniFramework) (p q : String)
    (f g : Handler) (d1 d2 : String)
    (hnd : (fw.urls.map Prod.fst).Nodup) (hq : q ≠ p) :
    dictLookup (((fw.add_route p f d1).add_route p g d2)).urls p = some g
    ∧ dictLookup (((fw.add_route p f d1).add_route p g d2)).urls q
        = dictLookup fw.urls q
    ∧ ((((fw.add_route p f d1).add_route p g d2)).urls.map Prod.fst).count p
        = 1 := by
  have hurls : (((fw.add_route p f d1).add_route p g d2)).urls
      = dictInsert (dictInsert fw.urls p f) p g := rfl
  refine ⟨?_, ?_, ?_⟩
  · rw [hurls, dictLookup_dictInsert]; simp
  · have hpq : ¬p = q := fun hh => hq hh.symm
    rw [hurls, dictLookup_dictInsert, dictLookup_dictInsert]
    simp [hpq]
  · rw [hurls, keys_dictInsert, keys_dictInsert]
    by_cases hm : p ∈ fw.urls.map Prod.fst
    · simp only [hm, if_true]
      exact List.count_eq_one_of_mem hnd hm
    · simp only [hm, if_false, List.mem_append, List.mem_singleton, or_true,
        if_true]
      rw [List.count_append]
      simp [List.count_eq_zero_of_not_mem hm]

/-- C8 witness: evaluation on a framework whose urls dict holds the docs
route, re-registering the path /x. -/
theorem claim_C8_add_route_replace_witness :
    dictLookup ((((MiniFramework.init true "html").add_route "/x"
        (.user 1) "").add_route "/x" (.user 2) "")).urls "/x"
      = some (Handler.user 2)
    ∧ dictLookup ((((MiniFramework.init true "html").add_route "/x"
        (.user 1) "").add_route "/x" (.user 2) "")).urls "/docs"
      = dictLookup (MiniFramework.init true "html").urls "/docs"
    ∧ (((((MiniFramework.init true "html").add_route "/x"
        (.user 1) "").add_route "/x" (.user 2) "")).urls.map Prod.fst).count "/x"
      = 1 :=
  claim_C8_add_route_replace (MiniFramework.init true "html") "/x" "/docs"
    (.user 1) (.user 2) "" "" (by decide) (by decide)

/-- C10: with docs enabled (the default) construction registers exactly
the /docs path bound to the docs view, ahead of any later user route;
with docs disabled no /docs route exists and add_route records no
documentation. -/
theorem claim_C10_docs_registration (fmt p : String) (f : Handler)
    (d : String) (hp : p ≠ "/docs") :
    (MiniFramework.init true fmt).urls = [("/docs", Handler.docsView)]
    ∧ dictLookup (MiniFramework.init false fmt).urls "/docs" = none
    ∧ ((MiniFramework.init false fmt).add_route p f d).route_docs = []
    ∧ ((MiniFramework.init true fmt).add_route p f d).urls
        = [("/docs", Handler.docsView), (p, f)] := by
  refine ⟨rfl, rfl, rfl, ?_⟩
  have : (MiniFramework.init true fmt).urls = [("/docs", Handler.docsView)] := rfl
  show dictInsert (MiniFramework.init true fmt).urls p f
      = [("/docs", Handler.docsView), (p, f)]
  rw [this]
  have hnp : ¬"/docs" = p := fun hh => hp hh.symm
  simp [dictInsert, hnp]

/-- C10 witness: evaluation at a concrete user path distinct from
/docs. -/
theorem claim_C10_docs_registration_witness :
    (MiniFramework.init true "html").urls = [("/docs", Handler.docsView)]
    ∧ dictLookup (MiniFramework.init false "html").urls "/docs" = none
    ∧ ((MiniFramework.init false "html").add_route "/home" (.user 0) "h").route_docs = []
    ∧ ((MiniFramework.init true "html").add_route "/home" (.user 0) "h").urls
        = [("/docs", Handler.docsView), ("/home", Handler.user 0)] :=
  claim_C10_docs_registration "html" "/home" (.user 0) "h" (by decide)

/-- C1: route resolution returns the handler of the first pattern in
registration order that fully matches the path, and the resolved handler
is the one dispatched; a path matched by no registered pattern resolves
to not-found and dispatches to the fixed 404 response, which is built
without consulting any registered handler; matching is full-string, so a
pattern that only matches a proper prefix of the path does not win. -/
theorem claim_C1_route_resolution (pre post : List (Regex × Handler))
    (pat : Regex) (h : Handler) (p : String)
    (runHandler : Handler → Response)
    (routes : List (Regex × Handler))
    (hpre : ∀ r ∈ pre, fullmatch r.1 p = false)
    (hpat : fullmatch pat p = true)
    (hnone : ∀ r ∈ routes, fullmatch r.1 p = false) :
    resolve (pre ++ (pat, h) :: post) p = some h
    ∧ dispatch (pre ++ (pat, h) :: post) runHandler p = runHandler h
    ∧ resolve routes p = none
    ∧ dispatch routes runHandler p = notFound
    ∧ notFound.status = 404
    ∧ startsWithChars "/a".data "/ab".data = true
    ∧ fullmatch (litPattern "/a") "/ab" = false
    ∧ fullmatch (litPattern "/a") "/a" = true := by
  have hres : resolve (pre ++ (pat, h) :: post) p = some h := by
    induction pre with
    | nil => simp [resolve, hpat]
    | cons r rest ih =>
      have hr : fullmatch r.1 p = false := hpre r (List.mem_cons_self r rest)
      have ih' := ih (fun x hx => hpre x (List.mem_cons_of_mem r hx))
      simp only [List.cons_append, resolve, hr]
      simpa using ih'
  have hresn : resolve routes p = none := by
    induction routes with
    | nil => rfl
    | cons r rest ih =>
      have hr : fullmatch r.1 p = false := hnone r (List.mem_cons_self r rest)
      have ih' := ih (fun x hx => hnone x (List.mem_cons_of_mem r hx))
      simp only [resolve, hr]
      simpa using ih'
  refine ⟨hres, ?_, hresn, ?_, rfl, by decide, by decide, by decide⟩
  · simp [dispatch, hres]
  · simp [dispatch, hresn]

/-- C1 witness: a concrete route table in which an earlier non-matching
pattern is skipped, the first full match among two identical patterns
wins, and an unmatched table dispatches to the 404 response. -/
theorem claim_C1_route_resolution_witness :
    resolve [(litPattern "/x", Handler.user 0), (litPattern "/a", Handler.user 1),
        (litPattern "/a", Handler.user 2)] "/a" = some (Handler.user 1)
    ∧ dispatch [(litPattern "/x", Handler.user 0), (litPattern "/a", Handler.user 1),
        (litPattern "/a", Handler.user 2)]
        (fun _ => Response.init (.str "ok") 200 none) "/a"
      = (fun _ : Handler => Response.init (.str "ok") 200 none) (Handler.user 1)
    ∧ resolve [(litPattern "/x", Handler.user 0)] "/a" = none
    ∧ dispatch [(litPattern "/x", Handler.user 0)]
        (fun _ => Response.init (.str "ok") 200 none) "/a" = notFound
    ∧ notFound.status = 404
    ∧ startsWithChars "/a".data "/ab".data = true
    ∧ fullmatch (litPattern "/a") "/ab" = false
    ∧ fullmatch (litPattern "/a") "/a" = true :=
  claim_C1_route_resolution [(litPattern "/x", Handler.user 0)]
    [(litPattern "/a", Handler.user 2)] (litPattern "/a") (Handler.user 1) "/a"
    (fun _ => Response.init (.str "ok") 200 none)
    [(litPattern "/x", Handler.user 0)]
    (by decide) (by decide) (by decide)

/-- Chain execution from any cursor when every middleware before the
short-circuiting one delegates: the executed cursors are the consecutive
positions through the short-circuiter, the response is the
short-circuiter's own, and the terminal step never runs. -/
lemma runChainFrom_shortCircuit {C : Type} (pre : List (Middleware C))
    (m : Middleware C) (post : List (Middleware C)) (term : C → Response)
    (ctx : C) (r : Response)
    (hpre : ∀ mw ∈ pre, mw ctx = none) (hm : m ctx = some r) :
    ∀ i, runChainFrom (pre ++ m :: post) term ctx i
      = (r, List.range' i (pre.length + 1), false) := by
  induction pre with
  | nil =>
    intro i
    simp [runChainFrom, hm, List.range']
  | cons mw rest ih =>
    intro i
    have hmw : mw ctx = none := hpre mw (List.mem_cons_self mw rest)
    have ih' := ih (fun x hx => hpre x (List.mem_cons_of_mem mw hx)) (i + 1)
    simp only [List.cons_append, runChainFrom, hmw]
    have e : runChainFrom (rest.append (m :: post)) term ctx (i + 1)
        = (r, List.range' (i + 1) (rest.length + 1), false) := ih'
    rw [e]
    rfl

/-- Chain execution from any cursor when every middleware delegates: all
of them execute in cursor order and the terminal step runs on the
context. -/
lemma runChainFrom_allPass {C : Type} (ms : List (Middleware C))
    (term : C → Response) (ctx : C)
    (hall : ∀ mw ∈ ms, mw ctx = none) :
    ∀ i, runChainFrom ms term ctx i
      = (term ctx, List.range' i ms.length, true) := by
  induction ms with
  | nil => intro i; simp [runChainFrom, List.range']
  | cons mw rest ih =>
    intro i
    have hmw : mw ctx = none := hall mw (List.mem_cons_self mw rest)
    have ih' := ih (fun x hx => hall x (List.mem_cons_of_mem mw hx)) (i + 1)
    simp only [runChainFrom, hmw]
    rw [ih']
    rfl

/-- C2: the composed middleware chain executes the middlewares in exactly
registration order up to the first that does not call its continuation:
when the middlewares at positions 0 through k-1 all delegate and the one
at position k short-circuits, exactly positions 0 through k execute, the
final response is the short-circuiter's return value, and neither any
later middleware nor the router terminal ever runs; when every middleware
delegates, all execute in order and the router terminal runs. -/
theorem claim_C2_middleware_chain {C : Type} (pre post : List (Middleware C))
    (m : Middleware C) (term : C → Response) (ctx : C) (r : Response)
    (ms : List (Middleware C))
    (hpre : ∀ mw ∈ pre, mw ctx = none) (hm : m ctx = some r)
    (hall : ∀ mw ∈ ms, mw ctx = none) :
    runChain (pre ++ m :: post) term ctx
      = (r, List.range (pre.length + 1), false)
    ∧ runChain ms term ctx = (term ctx, List.range ms.length, true) := by
  constructor
  · rw [runChain, runChainFrom_shortCircuit pre m post term ctx r hpre hm 0,
      List.range_eq_range']
  · rw [runChain, runChainFrom_allPass ms term ctx hall 0,
      List.range_eq_range']

/-- C2 witness: a concrete three-middleware chain whose second member
short-circuits — only cursors 0 and 1 execute and the router terminal is
never reached — next to a concrete all-delegating chain that reaches the
terminal. -/
theorem claim_C2_middleware_chain_witness :
    runChain (C := Nat)
        [fun _ => none, fun _ => some (Response.init (.str "sc") 200 none),
         fun _ => some (Response.init (.str "late") 200 none)]
        (fun _ => Response.init (.str "router") 200 none) 0
      = (Response.init (.str "sc") 200 none, List.range 2, false)
    ∧ runChain (C := Nat) [fun _ => none, fun _ => none]
        (fun _ => Response.init (.str "router") 200 none) 0
      = (Response.init (.str "router") 200 none, List.range 2, true) :=
  claim_C2_middleware_chain [fun _ => none]
    [fun _ => some (Response.init (.str "late") 200 none)]
    (fun _ => some (Response.init (.str "sc") 200 none))
    (fun _ => Response.init (.str "router") 200 none) 0
    (Response.init (.str "sc") 200 none)
    [fun _ => none, fun _ => none]
    (by intro mw hmw; simp only [List.mem_singleton] at hmw; subst hmw; rfl)
    rfl
    (by
      intro mw hmw
      simp only [List.mem_cons, List.mem_singleton, List.not_mem_nil,
        or_false] at hmw
      rcases hmw with h1 | h1 <;> (subst h1; rfl))

/-- C3: an uncaught pipeline failure is caught at the per-request
server-loop boundary and becomes exactly one 500-status Error response;
the accept loop survives it — serving a request list containing the
failing request produces a response for every request, the surrounding
requests receiving exactly the responses they would receive on their own
— and a request whose pipeline succeeds is served its own response. -/
theorem claim_C3_failure_containment (debug : Bool)
    (pipeline : Request → Outcome) (bad good : Request) (msg : String)
    (resp : Response) (rs1 rs2 : List Request)
    (hbad : pipeline bad = .fail msg) (hgood : pipeline good = .ok resp) :
    (handleRequest debug pipeline bad).status = 500
    ∧ handleRequest debug pipeline bad
        = Error.init (if debug then msg else "Internal Server Error") 500
    ∧ serve debug pipeline (rs1 ++ bad :: rs2)
        = serve debug pipeline rs1
          ++ handleRequest debug pipeline bad :: serve debug pipeline rs2
    ∧ handleRequest debug pipeline good = resp := by
  refine ⟨?_, ?_, ?_, ?_⟩
  · simp [handleRequest, hbad, Error.init, Response.init]
  · simp [handleRequest, hbad]
  · simp [serve]
  · simp [handleRequest, hgood]

/-- C3 witness: a concrete pipeline that fails on the path /boom and
succeeds elsewhere, served between two healthy requests. -/
theorem claim_C3_failure_containment_witness :
    (handleRequest false
        (fun rq => if rq.target = "/boom" then .fail "oops"
          else .ok (Response.init (.str "fine") 200 none))
        (Request.mk "GET" "/boom" [] [])).status = 500
    ∧ handleRequest false
        (fun rq => if rq.target = "/boom" then .fail "oops"
          else .ok (Response.init (.str "fine") 200 none))
        (Request.mk "GET" "/boom" [] [])
      = Error.init (if false then "oops" else "Internal Server Error") 500
    ∧ serve false
        (fun rq => if rq.target = "/boom" then .fail "oops"
          else .ok (Response.init (.str "fine") 200 none))
        ([Request.mk "GET" "/ok" [] []] ++ Request.mk "GET" "/boom" [] []
          :: [Request.mk "GET" "/ok" [] []])
      = serve false
          (fun rq => if rq.target = "/boom" then .fail "oops"
            else .ok (Response.init (.str "fine") 200 none))
          [Request.mk "GET" "/ok" [] []]
        ++ handleRequest false
            (fun rq => if rq.target = "/boom" then .fail "oops"
              else .ok (Response.init (.str "fine") 200 none))
            (Request.mk "GET" "/boom" [] [])
          :: serve false
              (fun rq => if rq.target = "/boom" then .fail "oops"
                else .ok (Response.init (.str "fine") 200 none))
              [Request.mk "GET" "/ok" [] []]
    ∧ handleRequest false
        (fun rq => if rq.target = "/boom" then .fail "oops"
          else .ok (Response.init (.str "fine") 200 none))
        (Request.mk "GET" "/ok" [] [])
      = Response.init (.str "fine") 200 none :=
  claim_C3_failure_containment false
    (fun rq => if rq.target = "/boom" then .fail "oops"
      else .ok (Response.init (.str "fine") 200 none))
    (Request.mk "GET" "/boom" [] []) (Request.mk "GET" "/ok" [] []) "oops"
    (Response.init (.str "fine") 200 none)
    [Request.mk "GET" "/ok" [] []] [Request.mk "GET" "/ok" [] []]
    (by decide) (by decide)

/-- C7: a server run stores the one access code drawn at startup, and the
stored code and console output of the run do not depend on the requests
served (the code is generated once per run, not per request); the code is
printed to the operator console when the debug flag is set and the
console stays silent when it is not. -/
theorem claim_C7_admin_code (app appOff : MiniFramework) (code : Nat)
    (pipeline : Request → Outcome) (reqs : List Request)
    (hdbg : app.debug = true) (hoff : appOff.debug = false) :
    (runServer app code pipeline reqs).1.app.admin_pin = some code
    ∧ (runServer app code pipeline reqs).1 = (runServer app code pipeline []).1
    ∧ ("Admin PIN: " ++ toString code) ∈ (startup app code).console
    ∧ (startup appOff code).console = [] := by
  refine ⟨rfl, rfl, ?_, ?_⟩
  · simp [startup, hdbg]
  · simp [startup, hoff]

/-- C7 witness: a debug-enabled framework prints its code 1234 and an
otherwise identical non-debug framework prints nothing. -/
theorem claim_C7_admin_code_witness :
    (runServer { MiniFramework.init true "html" with debug := true } 1234
        (fun _ => .fail "x") []).1.app.admin_pin = some 1234
    ∧ (runServer { MiniFramework.init true "html" with debug := true } 1234
        (fun _ => .fail "x") []).1
      = (runServer { MiniFramework.init true "html" with debug := true } 1234
          (fun _ => .fail "x") []).1
    ∧ ("Admin PIN: " ++ toString 1234)
        ∈ (startup { MiniFramework.init true "html" with debug := true } 1234).console
    ∧ (startup (MiniFramework.init true "html") 1234).console = [] :=
  claim_C7_admin_code { MiniFramework.init true "html" with debug := true }
    (MiniFramework.init true "html") 1234 (fun _ => .fail "x") [] rfl rfl

end Skeleto
